import Mathlib

/-!
Shallow embedding of the verification and certificate-issuance workflow of the
Carbon_Credit repository (src/components/dashboards/VerifierDashboard.tsx).

The persistence gateway (Supabase) is modelled as an explicit database value
holding the four mutated/read entity tables.  Each decision handler is a pure
function from the database (plus the component's in-memory `pendingProjects`
snapshot, the acting profile id, the clock, and a record of which gateway
writes fail) to the new database together with the success flag reported to
the user (success toast = `true`, error toast = `false`).

Timestamps are modelled as natural numbers; `new Date().toISOString()` and
`Date.now()` during one handler invocation are both the single `now`
parameter.  String-valued status columns whose value sets are fixed by the
code and the SQL CHECK constraints are modelled as inductive types.
-/

namespace CarbonCreditApp

/-- Project lifecycle states (`projects.status`). -/
inductive ProjectStatus
  | pending
  | under_review
  | verified
  | rejected
deriving DecidableEq, Repr

/-- A row of the `projects` table, with the columns the dashboard reads and
writes (the `profiles` join of the pending-projects query only projects
read-only display fields and is not modelled separately). -/
structure Project where
  id : Nat
  title : String
  location : String
  area_hectares : Nat
  description : String
  status : ProjectStatus
  estimated_credits : Nat
  submitted_at : Nat
  submitter_id : Nat
  verifier_id : Option Nat
  verification_notes : Option String
  verified_at : Option Nat
deriving DecidableEq, Repr

/-- A row of the `carbon_credits` table as inserted by `handleVerifyProject`. -/
structure CarbonCreditRow where
  project_id : Nat
  owner_id : Nat
  credits_amount : Nat
  status : String
deriving DecidableEq, Repr

/-- A row of the `certificates` table.  `handleVerifyProject` inserts a row
with a generated `certificate_url`; `handleCertificateRequest` inserts one
without a url (column left null). -/
structure Certificate where
  project_id : Nat
  generated_by : Nat
  certificate_url : Option String
deriving DecidableEq, Repr

/-- Certificate-request lifecycle states (`certificate_requests.status`,
CHECK-constrained to pending/approved/rejected by the migration). -/
inductive RequestStatus
  | pending
  | approved
  | rejected
deriving DecidableEq, Repr

/-- A row of the `certificate_requests` table. -/
structure CertificateRequest where
  id : Nat
  project_id : Nat
  requester_id : Nat
  status : RequestStatus
  requested_at : Nat
  processed_at : Option Nat
  processed_by : Option Nat
  notes : Option String
deriving DecidableEq, Repr

/-- The persisted state: the four tables the dashboard reads or writes. -/
structure DB where
  projects : List Project
  carbon_credits : List CarbonCreditRow
  certificates : List Certificate
  certificate_requests : List CertificateRequest
deriving DecidableEq, Repr

/-- Predicate of the `.in('status', ['pending', 'under_review'])` filter. -/
def isPendingOrUnderReview (p : Project) : Bool :=
  p.status == ProjectStatus.pending || p.status == ProjectStatus.under_review

/-- The `ORDER BY submitted_at ASC` comparison. -/
def submittedBefore (a b : Project) : Prop :=
  a.submitted_at ≤ b.submitted_at

instance : DecidableRel submittedBefore :=
  fun a b => Nat.decLe a.submitted_at b.submitted_at

instance : IsTotal Project submittedBefore :=
  ⟨fun a b => Nat.le_total a.submitted_at b.submitted_at⟩

instance : IsTrans Project submittedBefore :=
  ⟨fun _ _ _ => Nat.le_trans⟩

/-- The pending-projects query of `fetchVerifierData`: all projects with
status in {pending, under_review}, ordered by `submitted_at` ascending. -/
def listPendingProjects (projects : List Project) : List Project :=
  List.insertionSort submittedBefore (projects.filter isPendingOrUnderReview)

/-- The four dashboard counters. -/
structure VerifierStats where
  pendingReviews : Nat
  verifiedProjects : Nat
  rejectedProjects : Nat
  totalReviewed : Nat
deriving DecidableEq, Repr

/-- The stats computation of `fetchVerifierData`: `pendingReviews` is the
length of the pending-projects query result; the verified/rejected counters
are computed over the `projects` rows whose `verifier_id` is not null. -/
def computeStats (projects : List Project) : VerifierStats :=
  let pendingData := listPendingProjects projects
  let allProjects := projects.filter (fun p => p.verifier_id.isSome)
  let verifiedCount := (allProjects.filter (fun p => p.status == ProjectStatus.verified)).length
  let rejectedCount := (allProjects.filter (fun p => p.status == ProjectStatus.rejected)).length
  { pendingReviews := pendingData.length
    verifiedProjects := verifiedCount
    rejectedProjects := rejectedCount
    totalReviewed := verifiedCount + rejectedCount }

/-- The `pendingReviews` counter as the specification words it: the count of
pending/under_review rows within the project set restricted to rows with a
non-null `verifier_id`.  Stated from the spec to compare against
`computeStats`, which the code derives from the unrestricted pending query. -/
def specRestrictedPendingCount (projects : List Project) : Nat :=
  ((projects.filter (fun p => p.verifier_id.isSome)).filter isPendingOrUnderReview).length

/-- The decision argument of `handleVerifyProject` (`'verified' | 'rejected'`). -/
inductive VerifyDecision
  | verified
  | rejected
deriving DecidableEq, Repr

/-- The project status written for a decision. -/
def VerifyDecision.toStatus : VerifyDecision → ProjectStatus
  | .verified => ProjectStatus.verified
  | .rejected => ProjectStatus.rejected

/-- The `UPDATE projects SET status, verifier_id, verification_notes,
verified_at WHERE id = ?` payload applied to one row. -/
def applyProjectUpdate (decision : VerifyDecision) (verifierId : Nat)
    (verificationNotes : String) (now : Nat) (p : Project) : Project :=
  { p with
    status := decision.toStatus
    verifier_id := some verifierId
    verification_notes := some verificationNotes
    verified_at := if decision = VerifyDecision.verified then some now else none }

/-- The generated `certificate_url` of the auto-certificate:
`auto_cert_${projectId}_${Date.now()}.pdf`. -/
def autoCertificateUrl (projectId now : Nat) : String :=
  "auto_cert_" ++ toString projectId ++ "_" ++ toString now ++ ".pdf"

/-- Which gateway writes fail during one `handleVerifyProject` call. -/
structure VerifyWriteFailures where
  projectUpdateFails : Bool
  creditInsertFails : Bool
  certificateInsertFails : Bool
deriving DecidableEq, Repr

/-- All writes succeed. -/
def noVerifyFailures : VerifyWriteFailures :=
  { projectUpdateFails := false, creditInsertFails := false, certificateInsertFails := false }

/-- `handleVerifyProject(projectId, status)` of VerifierDashboard.tsx.
Steps, in source order: update the project row (throw on error); if the
decision is `verified`, look the project up in the in-memory
`pendingProjects` list and, when found, insert a carbon-credit row (throw on
error) and then attempt the auto-certificate insert, whose error is only
logged.  A thrown error is caught and reported as failure (`false`); every
other path reports success (`true`). -/
def handleVerifyProject (db : DB) (pendingProjects : List Project) (projectId : Nat)
    (decision : VerifyDecision) (verificationNotes : String) (verifierId : Nat)
    (now : Nat) (fail : VerifyWriteFailures) : DB × Bool :=
  if fail.projectUpdateFails then (db, false)
  else
    let db1 : DB := { db with
      projects := db.projects.map fun p =>
        if p.id = projectId then applyProjectUpdate decision verifierId verificationNotes now p
        else p }
    match decision with
    | .rejected => (db1, true)
    | .verified =>
      match pendingProjects.find? (fun p => p.id == projectId) with
      | none => (db1, true)
      | some project =>
        if fail.creditInsertFails then (db1, false)
        else
          let db2 : DB := { db1 with
            carbon_credits := db1.carbon_credits ++
              [{ project_id := projectId
                 owner_id := project.submitter_id
                 credits_amount := project.estimated_credits
                 status := "active" }] }
          if fail.certificateInsertFails then (db2, true)
          else
            ({ db2 with
               certificates := db2.certificates ++
                 [{ project_id := projectId
                    generated_by := verifierId
                    certificate_url := some (autoCertificateUrl projectId now) }] }, true)

/-- The decision argument of `handleCertificateRequest`
(`'approved' | 'rejected'`). -/
inductive RequestDecision
  | approved
  | rejected
deriving DecidableEq, Repr

/-- The request status written for a decision. -/
def RequestDecision.toStatus : RequestDecision → RequestStatus
  | .approved => RequestStatus.approved
  | .rejected => RequestStatus.rejected

/-- The `UPDATE certificate_requests SET status, processed_at, processed_by,
notes WHERE id = ?` payload applied to one row. -/
def applyRequestUpdate (decision : RequestDecision) (processorId now : Nat)
    (notes : Option String) (r : CertificateRequest) : CertificateRequest :=
  { r with
    status := decision.toStatus
    processed_at := some now
    processed_by := some processorId
    notes := notes }

/-- Which gateway writes fail during one `handleCertificateRequest` call. -/
structure RequestWriteFailures where
  requestUpdateFails : Bool
  certificateInsertFails : Bool
deriving DecidableEq, Repr

/-- All writes succeed. -/
def noRequestFailures : RequestWriteFailures :=
  { requestUpdateFails := false, certificateInsertFails := false }

/-- `handleCertificateRequest(requestId, projectId, status, notes?)` of
VerifierDashboard.tsx.  Steps: update the certificate-request row (throw on
error); if the decision is `approved`, insert a certificate row without a
`certificate_url`, and here an insert error IS thrown.  A thrown error is
caught and reported as failure (`false`); otherwise success (`true`). -/
def handleCertificateRequest (db : DB) (requestId projectId : Nat)
    (decision : RequestDecision) (notes : Option String) (processorId now : Nat)
    (fail : RequestWriteFailures) : DB × Bool :=
  if fail.requestUpdateFails then (db, false)
  else
    let db1 : DB := { db with
      certificate_requests := db.certificate_requests.map fun r =>
        if r.id = requestId then applyRequestUpdate decision processorId now notes r
        else r }
    match decision with
    | .rejected => (db1, true)
    | .approved =>
      if fail.certificateInsertFails then (db1, false)
      else
        ({ db1 with
           certificates := db1.certificates ++
             [{ project_id := projectId
                generated_by := processorId
                certificate_url := none }] }, true)

/-! ## Shared lemmas -/

/-- Membership in the pending-projects query result. -/
theorem mem_listPendingProjects {projects : List Project} {p : Project} :
    p ∈ listPendingProjects projects ↔ p ∈ projects ∧ isPendingOrUnderReview p = true := by
  unfold listPendingProjects
  rw [(List.perm_insertionSort submittedBefore _).mem_iff, List.mem_filter]

/-- Length of the pending-projects query result. -/
theorem listPendingProjects_length (projects : List Project) :
    (listPendingProjects projects).length = (projects.filter isPendingOrUnderReview).length :=
  (List.perm_insertionSort submittedBefore _).length_eq

/-- With distinct project ids, the lookup of a pending project in the fetched
pending list finds exactly that project. -/
theorem find?_listPendingProjects (projects : List Project) (p : Project)
    (hnodup : (projects.map Project.id).Nodup) (hmem : p ∈ projects)
    (hstatus : isPendingOrUnderReview p = true) :
    (listPendingProjects projects).find? (fun q => q.id == p.id) = some p := by
  have hmemPend : p ∈ listPendingProjects projects :=
    mem_listPendingProjects.2 ⟨hmem, hstatus⟩
  have hsome : ((listPendingProjects projects).find? (fun q => q.id == p.id)).isSome :=
    List.find?_isSome.2 ⟨p, hmemPend, by simp⟩
  obtain ⟨q, hq⟩ := Option.isSome_iff_exists.1 hsome
  have hqmem : q ∈ projects := (mem_listPendingProjects.1 (List.mem_of_find?_eq_some hq)).1
  have hqid : q.id = p.id := by simpa using List.find?_some hq
  rw [hq, List.inj_on_of_nodup_map hnodup hqmem hmem hqid]

/-! ## Concrete sample data (used by counterexamples and witnesses) -/

/-- A freshly submitted project: status `pending`, no reviewer assigned. -/
def samplePendingProject : Project :=
  { id := 1
    title := "Mangrove Restoration"
    location := "Coastal Zone A"
    area_hectares := 10
    description := "Replanting of mangroves"
    status := ProjectStatus.pending
    estimated_credits := 500
    submitted_at := 100
    submitter_id := 7
    verifier_id := none
    verification_notes := none
    verified_at := none }

/-- A database holding just the sample pending project. -/
def sampleDB : DB :=
  { projects := [samplePendingProject]
    carbon_credits := []
    certificates := []
    certificate_requests := [] }

/-- A pending certificate request for the sample project. -/
def sampleRequest : CertificateRequest :=
  { id := 31
    project_id := 1
    requester_id := 12
    status := RequestStatus.pending
    requested_at := 150
    processed_at := none
    processed_by := none
    notes := none }

/-- A database holding the sample project (already verified) and the sample
pending certificate request. -/
def sampleRequestDB : DB :=
  { projects := [{ samplePendingProject with status := ProjectStatus.verified }]
    carbon_credits := []
    certificates := []
    certificate_requests := [sampleRequest] }

/-! ## Claim theorems -/

/-- C5: if the Project update write inside `decideProject` fails, the whole
operation reports an error and the database is unchanged: no CarbonCredit,
no Certificate, no mutation of any entity, whatever the later write flags
would have been. -/
theorem decideProject_updateFail_aborts (db : DB) (pend : List Project)
    (projectId : Nat) (decision : VerifyDecision) (notes : String)
    (verifierId now : Nat) (creditFail certFail : Bool) :
    handleVerifyProject db pend projectId decision notes verifierId now
      { projectUpdateFails := true
        creditInsertFails := creditFail
        certificateInsertFails := certFail } = (db, false) := rfl

/-- C3: inside `decideProject` with decision `verified` (project found in the
pending list), (a) a failing auto-certificate insert after the successful
status update and credit insert leaves the operation reporting success, with
the credit row written and no certificate row; (b) a failing credit insert
after the successful status update surfaces an error, with no credit and no
certificate written. -/
theorem decideProject_partialFailure_policy (db : DB) (pend : List Project)
    (projectId : Nat) (notes : String) (verifierId now : Nat) (project : Project)
    (hfind : pend.find? (fun p => p.id == projectId) = some project) :
    (let r := handleVerifyProject db pend projectId VerifyDecision.verified notes verifierId now
        { projectUpdateFails := false, creditInsertFails := false, certificateInsertFails := true }
     r.2 = true ∧
     r.1.certificates = db.certificates ∧
     r.1.carbon_credits = db.carbon_credits ++
       [{ project_id := projectId
          owner_id := project.submitter_id
          credits_amount := project.estimated_credits
          status := "active" }] ∧
     r.1.projects = db.projects.map (fun p =>
       if p.id = projectId then applyProjectUpdate VerifyDecision.verified verifierId notes now p else p)) ∧
    (let r := handleVerifyProject db pend projectId VerifyDecision.verified notes verifierId now
        { projectUpdateFails := false, creditInsertFails := true, certificateInsertFails := false }
     r.2 = false ∧
     r.1.carbon_credits = db.carbon_credits ∧
     r.1.certificates = db.certificates ∧
     r.1.projects = db.projects.map (fun p =>
       if p.id = projectId then applyProjectUpdate VerifyDecision.verified verifierId notes now p else p)) := by
  constructor <;> simp [handleVerifyProject, hfind]

/-- Witness for C3 at the sample database. -/
theorem decideProject_partialFailure_policy_witness :
    (let r := handleVerifyProject sampleDB [samplePendingProject] 1 VerifyDecision.verified "notes" 9 200
        { projectUpdateFails := false, creditInsertFails := false, certificateInsertFails := true }
     r.2 = true ∧
     r.1.certificates = sampleDB.certificates ∧
     r.1.carbon_credits = sampleDB.carbon_credits ++
       [{ project_id := 1
          owner_id := samplePendingProject.submitter_id
          credits_amount := samplePendingProject.estimated_credits
          status := "active" }] ∧
     r.1.projects = sampleDB.projects.map (fun p =>
       if p.id = 1 then applyProjectUpdate VerifyDecision.verified 9 "notes" 200 p else p)) ∧
    (let r := handleVerifyProject sampleDB [samplePendingProject] 1 VerifyDecision.verified "notes" 9 200
        { projectUpdateFails := false, creditInsertFails := true, certificateInsertFails := false }
     r.2 = false ∧
     r.1.carbon_credits = sampleDB.carbon_credits ∧
     r.1.certificates = sampleDB.certificates ∧
     r.1.projects = sampleDB.projects.map (fun p =>
       if p.id = 1 then applyProjectUpdate VerifyDecision.verified 9 "notes" 200 p else p)) :=
  decideProject_partialFailure_policy sampleDB [samplePendingProject] 1 "notes" 9 200
    samplePendingProject (by decide)

/-- C4: inside `decideRequest` with decision `approved`, a failing certificate
insert after the successful request update makes the whole operation report an
error, while the request row is already updated to status `approved`. -/
theorem decideRequest_certFail_propagates (db : DB) (r : CertificateRequest)
    (notes : Option String) (processorId now : Nat)
    (hmem : r ∈ db.certificate_requests) :
    let out := handleCertificateRequest db r.id r.project_id RequestDecision.approved
        notes processorId now
        { requestUpdateFails := false, certificateInsertFails := true }
    out.2 = false ∧
    out.1.certificates = db.certificates ∧
    applyRequestUpdate RequestDecision.approved processorId now notes r ∈
      out.1.certificate_requests ∧
    (applyRequestUpdate RequestDecision.approved processorId now notes r).status =
      RequestStatus.approved := by
  refine ⟨rfl, rfl, ?_, rfl⟩
  simp only [handleCertificateRequest, Bool.false_eq_true, if_false]
  exact List.mem_map.2 ⟨r, hmem, by simp⟩

/-- Witness for C4 at the sample database. -/
theorem decideRequest_certFail_propagates_witness :
    (let out := handleCertificateRequest sampleRequestDB sampleRequest.id
        sampleRequest.project_id RequestDecision.approved (some "ok") 9 300
        { requestUpdateFails := false, certificateInsertFails := true }
     out.2 = false ∧
     out.1.certificates = sampleRequestDB.certificates ∧
     applyRequestUpdate RequestDecision.approved 9 300 (some "ok") sampleRequest ∈
       out.1.certificate_requests ∧
     (applyRequestUpdate RequestDecision.approved 9 300 (some "ok") sampleRequest).status =
       RequestStatus.approved) :=
  decideRequest_certFail_propagates sampleRequestDB sampleRequest (some "ok") 9 300 (by decide)

/-- C10: if the project id is absent from the in-memory `pendingProjects`
snapshot, `decideProject(id, verified, ...)` still updates the project row to
`verified`, creates no CarbonCredit and no Certificate, and reports success. -/
theorem decideProject_staleList_noCredit (db : DB) (pend : List Project)
    (projectId : Nat) (notes : String) (verifierId now : Nat)
    (hfind : pend.find? (fun p => p.id == projectId) = none) :
    let r := handleVerifyProject db pend projectId VerifyDecision.verified notes verifierId now
      noVerifyFailures
    r.2 = true ∧
    r.1.carbon_credits = db.carbon_credits ∧
    r.1.certificates = db.certificates ∧
    r.1.projects = db.projects.map (fun p =>
      if p.id = projectId then applyProjectUpdate VerifyDecision.verified verifierId notes now p
      else p) ∧
    (∀ q ∈ r.1.projects, q.id = projectId → q.status = ProjectStatus.verified) := by
  refine ⟨?_, ?_, ?_, ?_, ?_⟩ <;>
    simp only [handleVerifyProject, noVerifyFailures, hfind, Bool.false_eq_true, if_false]
  intro q hq hqid
  obtain ⟨p, hpmem, hpq⟩ := List.mem_map.1 hq
  by_cases hid : p.id = projectId
  · subst hpq
    simp [hid, applyProjectUpdate, VerifyDecision.toStatus]
  · rw [if_neg hid] at hpq
    subst hpq
    exact absurd hqid hid

/-- Witness for C10: the sample pending project exists in the database, but
the in-memory pending list is empty (stale snapshot). -/
theorem decideProject_staleList_noCredit_witness :
    (let r := handleVerifyProject sampleDB [] 1 VerifyDecision.verified "notes" 9 200
       noVerifyFailures
     r.2 = true ∧
     r.1.carbon_credits = sampleDB.carbon_credits ∧
     r.1.certificates = sampleDB.certificates ∧
     r.1.projects = sampleDB.projects.map (fun p =>
       if p.id = 1 then applyProjectUpdate VerifyDecision.verified 9 "notes" 200 p
       else p) ∧
     (∀ q ∈ r.1.projects, q.id = 1 → q.status = ProjectStatus.verified)) :=
  decideProject_staleList_noCredit sampleDB [] 1 "notes" 9 200 (by decide)

/-- C6: for a project with status pending/under_review, a `rejected` decision
(all writes succeeding) reports success, sets the row's status to `rejected`,
`verifier_id` to the acting verifier, `verified_at` to null, records the
notes, and creates no CarbonCredit and no Certificate. -/
theorem decideProject_rejected_spec (db : DB) (pend : List Project) (p : Project)
    (notes : String) (verifierId now : Nat)
    (hmem : p ∈ db.projects)
    (hstatus : p.status = ProjectStatus.pending ∨ p.status = ProjectStatus.under_review) :
    let r := handleVerifyProject db pend p.id VerifyDecision.rejected notes verifierId now
      noVerifyFailures
    r.2 = true ∧
    r.1.carbon_credits = db.carbon_credits ∧
    r.1.certificates = db.certificates ∧
    (∀ q ∈ r.1.projects, q.id = p.id →
      q.status = ProjectStatus.rejected ∧ q.verifier_id = some verifierId ∧
      q.verified_at = none ∧ q.verification_notes = some notes) ∧
    (∃ q ∈ r.1.projects, q.id = p.id) := by
  refine ⟨rfl, rfl, rfl, ?_, ?_⟩
  · intro q hq hqid
    obtain ⟨p0, hp0mem, hp0q⟩ := List.mem_map.1 hq
    by_cases hid : p0.id = p.id
    · rw [if_pos hid] at hp0q
      subst hp0q
      simp [applyProjectUpdate, VerifyDecision.toStatus]
    · rw [if_neg hid] at hp0q
      subst hp0q
      exact absurd hqid hid
  · refine ⟨if p.id = p.id then applyProjectUpdate VerifyDecision.rejected verifierId notes now p
      else p, List.mem_map.2 ⟨p, hmem, rfl⟩, ?_⟩
    simp [applyProjectUpdate]

/-- Witness for C6 at the sample database. -/
theorem decideProject_rejected_spec_witness :
    (let r := handleVerifyProject sampleDB (listPendingProjects sampleDB.projects)
       samplePendingProject.id VerifyDecision.rejected "insufficient data" 9 200
       noVerifyFailures
     r.2 = true ∧
     r.1.carbon_credits = sampleDB.carbon_credits ∧
     r.1.certificates = sampleDB.certificates ∧
     (∀ q ∈ r.1.projects, q.id = samplePendingProject.id →
       q.status = ProjectStatus.rejected ∧ q.verifier_id = some 9 ∧
       q.verified_at = none ∧ q.verification_notes = some "insufficient data") ∧
     (∃ q ∈ r.1.projects, q.id = samplePendingProject.id)) :=
  decideProject_rejected_spec sampleDB (listPendingProjects sampleDB.projects)
    samplePendingProject "insufficient data" 9 200 (by decide) (Or.inl (by decide))

/-- C1: for a project with status pending/under_review (with the in-memory
pending list fetched from the same database state, and project ids distinct),
a `verified` decision with all writes succeeding reports success, sets the
row's status to `verified`, `verifier_id` to the acting verifier, records
the notes and the decision time, and appends exactly one CarbonCredit with
`credits_amount` equal to the project's `estimated_credits`, `owner_id` equal
to its `submitter_id`, and status `active`. -/
theorem decideProject_verified_spec (db : DB) (p : Project) (notes : String)
    (verifierId now : Nat)
    (hnodup : (db.projects.map Project.id).Nodup)
    (hmem : p ∈ db.projects)
    (hstatus : p.status = ProjectStatus.pending ∨ p.status = ProjectStatus.under_review) :
    let r := handleVerifyProject db (listPendingProjects db.projects) p.id
      VerifyDecision.verified notes verifierId now noVerifyFailures
    r.2 = true ∧
    r.1.carbon_credits = db.carbon_credits ++
      [{ project_id := p.id
         owner_id := p.submitter_id
         credits_amount := p.estimated_credits
         status := "active" }] ∧
    (∀ q ∈ r.1.projects, q.id = p.id →
      q.status = ProjectStatus.verified ∧ q.verifier_id = some verifierId ∧
      q.verification_notes = some notes ∧ q.verified_at = some now) ∧
    (∃ q ∈ r.1.projects, q.id = p.id) := by
  have hpend : isPendingOrUnderReview p = true := by
    rcases hstatus with h | h <;> simp [isPendingOrUnderReview, h]
  have hfind := find?_listPendingProjects db.projects p hnodup hmem hpend
  refine ⟨?_, ?_, ?_, ?_⟩
  · simp only [handleVerifyProject, noVerifyFailures, hfind, Bool.false_eq_true, if_false]
  · simp only [handleVerifyProject, noVerifyFailures, hfind, Bool.false_eq_true, if_false]
  · intro q hq hqid
    simp only [handleVerifyProject, noVerifyFailures, hfind, Bool.false_eq_true, if_false] at hq
    obtain ⟨p0, hp0mem, hp0q⟩ := List.mem_map.1 hq
    by_cases hid : p0.id = p.id
    · rw [if_pos hid] at hp0q
      subst hp0q
      simp [applyProjectUpdate, VerifyDecision.toStatus]
    · rw [if_neg hid] at hp0q
      subst hp0q
      exact absurd hqid hid
  · simp only [handleVerifyProject, noVerifyFailures, hfind, Bool.false_eq_true, if_false]
    refine ⟨if p.id = p.id then applyProjectUpdate VerifyDecision.verified verifierId notes now p
      else p, List.mem_map.2 ⟨p, hmem, rfl⟩, ?_⟩
    simp [applyProjectUpdate]

/-- Witness for C1 at the sample database. -/
theorem decideProject_verified_spec_witness :
    (let r := handleVerifyProject sampleDB (listPendingProjects sampleDB.projects)
       samplePendingProject.id VerifyDecision.verified "looks good" 9 200 noVerifyFailures
     r.2 = true ∧
     r.1.carbon_credits = sampleDB.carbon_credits ++
       [{ project_id := samplePendingProject.id
          owner_id := samplePendingProject.submitter_id
          credits_amount := samplePendingProject.estimated_credits
          status := "active" }] ∧
     (∀ q ∈ r.1.projects, q.id = samplePendingProject.id →
       q.status = ProjectStatus.verified ∧ q.verifier_id = some 9 ∧
       q.verification_notes = some "looks good" ∧ q.verified_at = some 200) ∧
     (∃ q ∈ r.1.projects, q.id = samplePendingProject.id)) :=
  decideProject_verified_spec sampleDB samplePendingProject "looks good" 9 200
    (by decide) (by decide) (Or.inl (by decide))

/-- C9: for every project set, the pending-projects query returns exactly the
projects whose status is pending or under_review, sorted by `submitted_at`
ascending, and never a verified or rejected project. -/
theorem listPendingProjects_spec (projects : List Project) :
    (∀ p, p ∈ listPendingProjects projects ↔
      p ∈ projects ∧
        (p.status = ProjectStatus.pending ∨ p.status = ProjectStatus.under_review)) ∧
    List.Sorted submittedBefore (listPendingProjects projects) ∧
    (∀ p ∈ listPendingProjects projects,
      p.status ≠ ProjectStatus.verified ∧ p.status ≠ ProjectStatus.rejected) := by
  have hiff : ∀ p : Project, isPendingOrUnderReview p = true ↔
      (p.status = ProjectStatus.pending ∨ p.status = ProjectStatus.under_review) := by
    intro p
    unfold isPendingOrUnderReview
    cases p.status <;> simp
  refine ⟨fun p => ?_, List.sorted_insertionSort submittedBefore _, fun p hp => ?_⟩
  · rw [mem_listPendingProjects, hiff]
  · have := (hiff p).1 (mem_listPendingProjects.1 hp).2
    rcases this with h | h <;> rw [h] <;> exact ⟨by simp, by simp⟩

/-- C2 counterexample: a single pending project with no verifier assigned.
The code counts it in `pendingReviews` (the unrestricted pending query),
while the claim's restriction to rows with a non-null `verifier_id` would
count zero. -/
theorem computeStats_restrictedPending_counterexample :
    (computeStats [samplePendingProject]).pendingReviews ≠
      specRestrictedPendingCount [samplePendingProject] := by decide

/-- C2 (amended): `pendingReviews` counts pending/under_review projects over
the FULL project set (the unrestricted pending query), while
`verifiedProjects` and `rejectedProjects` count over the set restricted to a
non-null `verifier_id`, and `totalReviewed` is their sum, for every state of
the project set. -/
theorem computeStats_spec (projects : List Project) :
    (computeStats projects).pendingReviews = (projects.filter isPendingOrUnderReview).length ∧
    (computeStats projects).verifiedProjects =
      ((projects.filter (fun p => p.verifier_id.isSome)).filter
        (fun p => p.status == ProjectStatus.verified)).length ∧
    (computeStats projects).rejectedProjects =
      ((projects.filter (fun p => p.verifier_id.isSome)).filter
        (fun p => p.status == ProjectStatus.rejected)).length ∧
    (computeStats projects).totalReviewed =
      (computeStats projects).verifiedProjects + (computeStats projects).rejectedProjects :=
  ⟨listPendingProjects_length projects, rfl, rfl, rfl⟩

/-- C7: for a pending certificate request, an `approved` decision (all writes
succeeding, the call made with the request's own `project_id` as at the call
site) reports success, sets the request's status to `approved`,
`processed_by` to the acting processor, `processed_at` to the decision time,
and appends exactly one Certificate referencing the request's `project_id`
with `generated_by` the acting processor; a `rejected` decision sets status
`rejected` with the processed fields set and appends no Certificate. -/
theorem decideRequest_spec (db : DB) (r : CertificateRequest)
    (notes : Option String) (processorId now : Nat)
    (hmem : r ∈ db.certificate_requests)
    (hpending : r.status = RequestStatus.pending) :
    (let out := handleCertificateRequest db r.id r.project_id RequestDecision.approved
        notes processorId now noRequestFailures
     out.2 = true ∧
     out.1.certificates = db.certificates ++
       [{ project_id := r.project_id, generated_by := processorId, certificate_url := none }] ∧
     (∀ q ∈ out.1.certificate_requests, q.id = r.id →
       q.status = RequestStatus.approved ∧ q.processed_by = some processorId ∧
       q.processed_at = some now) ∧
     (∃ q ∈ out.1.certificate_requests, q.id = r.id)) ∧
    (let out := handleCertificateRequest db r.id r.project_id RequestDecision.rejected
        notes processorId now noRequestFailures
     out.2 = true ∧
     out.1.certificates = db.certificates ∧
     (∀ q ∈ out.1.certificate_requests, q.id = r.id →
       q.status = RequestStatus.rejected ∧ q.processed_by = some processorId ∧
       q.processed_at = some now)) := by
  constructor
  · refine ⟨rfl, rfl, ?_, ?_⟩
    · intro q hq hqid
      obtain ⟨r0, hr0mem, hr0q⟩ := List.mem_map.1 hq
      by_cases hid : r0.id = r.id
      · rw [if_pos hid] at hr0q
        subst hr0q
        simp [applyRequestUpdate, RequestDecision.toStatus]
      · rw [if_neg hid] at hr0q
        subst hr0q
        exact absurd hqid hid
    · refine ⟨if r.id = r.id then applyRequestUpdate RequestDecision.approved processorId now notes r
        else r, List.mem_map.2 ⟨r, hmem, rfl⟩, ?_⟩
      simp [applyRequestUpdate]
  · refine ⟨rfl, rfl, ?_⟩
    intro q hq hqid
    obtain ⟨r0, hr0mem, hr0q⟩ := List.mem_map.1 hq
    by_cases hid : r0.id = r.id
    · rw [if_pos hid] at hr0q
      subst hr0q
      simp [applyRequestUpdate, RequestDecision.toStatus]
    · rw [if_neg hid] at hr0q
      subst hr0q
      exact absurd hqid hid

/-- Witness for C7 at the sample database. -/
theorem decideRequest_spec_witness :
    (let out := handleCertificateRequest sampleRequestDB sampleRequest.id
        sampleRequest.project_id RequestDecision.approved (some "approved") 9 300
        noRequestFailures
     out.2 = true ∧
     out.1.certificates = sampleRequestDB.certificates ++
       [{ project_id := sampleRequest.project_id, generated_by := 9, certificate_url := none }] ∧
     (∀ q ∈ out.1.certificate_requests, q.id = sampleRequest.id →
       q.status = RequestStatus.approved ∧ q.processed_by = some 9 ∧
       q.processed_at = some 300) ∧
     (∃ q ∈ out.1.certificate_requests, q.id = sampleRequest.id)) ∧
    (let out := handleCertificateRequest sampleRequestDB sampleRequest.id
        sampleRequest.project_id RequestDecision.rejected (some "approved") 9 300
        noRequestFailures
     out.2 = true ∧
     out.1.certificates = sampleRequestDB.certificates ∧
     (∀ q ∈ out.1.certificate_requests, q.id = sampleRequest.id →
       q.status = RequestStatus.rejected ∧ q.processed_by = some 9 ∧
       q.processed_at = some 300)) :=
  decideRequest_spec sampleRequestDB sampleRequest (some "approved") 9 300
    (by decide) (by decide)

/-- C8: `decideProject` is not idempotent: from the sample state, two
`verified` decisions on the same project id, both issued against the same
fetched pending list (the concurrent-reviewer race), leave two CarbonCredit
rows for that one project. -/
theorem decideProject_not_idempotent :
    (let pend := listPendingProjects sampleDB.projects
     let db1 := (handleVerifyProject sampleDB pend 1 VerifyDecision.verified "ok" 9 200
       noVerifyFailures).1
     let db2 := (handleVerifyProject db1 pend 1 VerifyDecision.verified "ok" 10 201
       noVerifyFailures).1
     (db2.carbon_credits.filter (fun c => c.project_id == 1)).length = 2) := by decide

end CarbonCreditApp
